import Mathlib

/-
Verification development for the starduster inference module
(src/starduster/inference.py).

Modelling conventions:
  * torch tensors holding one row of data are modelled as `List ℚ`;
    machine floats are modelled as exact rationals.
  * The transcendental primitives used by the code (`torch.log`,
    `10 ** x`, `np.sqrt(2 * np.pi)`) are carried as abstract parameters
    `lg : ℚ → ℚ`, `pw : ℚ → ℚ`, `s2pi : ℚ`, mirroring the fact that the
    source calls them as black-box library routines.
  * A boolean out-of-bounds tensor entry is a `Bool`; multiplying it into
    a float expression goes through `boolToRat` (Python bool-to-float).
  * Attribute names (Python strings used by the `InferenceState`
    flattening convention) are modelled as `List Char`.
  * A Python `AttributeError` on a missing attribute is modelled by
    `Option`: accessors of `Posterior` return `none` when `error_func`
    was never assigned.
-/

namespace Starduster

/-- Compute device of a tensor.  The forward-model adapter exposes a
`device` attribute; `torch.tensor` without a `device=` argument places the
result on the default device (CPU). -/
inductive Device where
  | cpu : Device
  | cuda : Device
deriving DecidableEq, Repr

/-- Python attribute names, modelled as lists of characters. -/
abbrev AttrName := List Char

/-- Python substring test `pat in s` (from `InferenceState.get_config`,
lines 247 and 249 of inference.py). -/
def containsSub (pat : AttrName) : AttrName → Bool
  | [] => pat.isPrefixOf []
  | c :: s => pat.isPrefixOf (c :: s) || containsSub pat s

/-- Python `s.replace(pat, "")` (from `InferenceState.get_config`,
lines 248 and 250): scan left to right, removing each non-overlapping
occurrence of `pat`. -/
def stripAll (pat : AttrName) : AttrName → AttrName
  | [] => []
  | c :: s =>
    if pat.isPrefixOf (c :: s) ∧ pat ≠ [] then stripAll pat (s.drop (pat.length - 1))
    else c :: stripAll pat s
  termination_by s => s.length
  decreasing_by
    · simp [List.length_drop]; omega
    · simp

/-- `sepFrom pat s` holds when no nonempty suffix of `s` is prefix-related
to `pat`; it rules out occurrences of `pat` spanning the boundary of
`s ++ t`. -/
def sepFrom (pat : AttrName) : AttrName → Bool
  | [] => true
  | c :: s => (!((c :: s).isPrefixOf pat) && !(pat.isPrefixOf (c :: s))) && sepFrom pat s

/-- The characters of the Python string literal "adapter". -/
def adapterSub : AttrName := ['a', 'd', 'a', 'p', 't', 'e', 'r']

/-- The characters of the Python string literal "adapter.". -/
def adapterDot : AttrName := ['a', 'd', 'a', 'p', 't', 'e', 'r', '.']

/-- The characters of the Python string literal "detector". -/
def detectorSub : AttrName := ['d', 'e', 't', 'e', 'c', 't', 'o', 'r']

/-- The characters of the Python string literal "detector.". -/
def detectorDot : AttrName := ['d', 'e', 't', 'e', 'c', 't', 'o', 'r', '.']

/-- An error kernel instance (class `ErrorFunction` and its subclasses,
lines 8-42): the declared free-parameter count, names and bounds, plus the
kernel's `forward` method, modelled as `score y_pred p_error`. -/
structure ErrorFunction where
  n_params : ℕ
  param_names : List String
  bounds : List (ℚ × ℚ)
  score : List ℚ → List ℚ → ℚ

/-- The `lbounds` buffer registered by `ErrorFunction.__init__` (line 27):
first column of `bounds`. -/
def ErrorFunction.lbounds (e : ErrorFunction) : List ℚ := e.bounds.map Prod.fst

/-- The `ubounds` buffer registered by `ErrorFunction.__init__` (line 27):
second column of `bounds`. -/
def ErrorFunction.ubounds (e : ErrorFunction) : List ℚ := e.bounds.map Prod.snd

/-- `ErrorFunction.__init__` (lines 17-29): with `param_names=None` the
kernel declares zero free parameters and empty bounds; otherwise
`n_params = len(param_names)` and the given bounds are stored. -/
def errorFunctionInit (score : List ℚ → List ℚ → ℚ) (pn : Option (List String))
    (bds : List (ℚ × ℚ)) : ErrorFunction :=
  match pn with
  | none => ⟨0, [], [], score⟩
  | some names => ⟨names.length, names, bds, score⟩

/-- `ErrorFunction.check_bounds` (lines 32-42):
`torch.any(params <= lbounds, dim=-1) | torch.any(params >= ubounds, dim=-1)`
for one row of parameters.  The `assert self.n_params > 0` precondition is
carried as a hypothesis by the theorems below. -/
def ErrorFunction.check_bounds (e : ErrorFunction) (params : List ℚ) : Bool :=
  ((params.zip e.lbounds).any fun t => decide (t.1 ≤ t.2)) ||
    ((params.zip e.ubounds).any fun t => decide (t.2 ≤ t.1))

/-- The `norm` term computed by `Gaussian.__init__` (lines 73-76):
`sum(-log(sqrt(2*pi)*y_err))` when `norm=True`, else `0`. -/
def gaussianNormConst (lg : ℚ → ℚ) (s2pi : ℚ) (y_err : List ℚ) (norm : Bool) : ℚ :=
  if norm then (y_err.map fun e => -(lg (s2pi * e))).sum else 0

/-- `Gaussian.forward` (lines 79-81): `delta = (y_pred - y_obs)/y_err;
sum(-.5*delta*delta, dim=-1) + norm`, for one row. -/
def gaussianScore (lg : ℚ → ℚ) (s2pi : ℚ) (y_obs y_err : List ℚ) (norm : Bool) :
    List ℚ → List ℚ → ℚ :=
  fun y_pred _ =>
    ((y_pred.zip (y_obs.zip y_err)).map fun t =>
      -(1 / 2) * (((t.1 - t.2.1) / t.2.2) * ((t.1 - t.2.1) / t.2.2))).sum +
      gaussianNormConst lg s2pi y_err norm

/-- Class `Gaussian` (lines 45-81): fixed-noise Gaussian kernel.
`__init__` calls `super().__init__()` with no arguments, so the kernel
declares zero free parameters. -/
def mkGaussian (lg : ℚ → ℚ) (s2pi : ℚ) (y_obs y_err : List ℚ) (norm : Bool) :
    ErrorFunction :=
  errorFunctionInit (gaussianScore lg s2pi y_obs y_err norm) none []

/-- `GaussianWithScatter.forward` (lines 111-116): `sigma = 10**log_sigma;
delta = (y_pred - y_obs)/sigma;
sum(-.5*delta*delta, dim=-1) - y_obs.size(0)*log(sqrt(2*pi)*sigma)`,
for one row; `pw` models `10 ** x`. -/
def scatterScore (lg : ℚ → ℚ) (pw : ℚ → ℚ) (s2pi : ℚ) (y_obs : List ℚ) :
    List ℚ → List ℚ → ℚ :=
  fun y_pred p_error =>
    ((y_pred.zip y_obs).map fun t =>
      -(1 / 2) * (((t.1 - t.2) / pw (p_error.headD 0)) *
        ((t.1 - t.2) / pw (p_error.headD 0)))).sum -
      (y_obs.length : ℚ) * lg (s2pi * pw (p_error.headD 0))

/-- Class `GaussianWithScatter` (lines 84-116): single-scatter Gaussian
kernel.  `__init__` calls `super().__init__(['sigma'], bounds)`; the Python
default for `bounds` is `(-2., 0.)`, given in base-10 log scale. -/
def mkGaussianWithScatter (lg : ℚ → ℚ) (pw : ℚ → ℚ) (s2pi : ℚ) (y_obs : List ℚ)
    (bds : ℚ × ℚ) : ErrorFunction :=
  errorFunctionInit (scatterScore lg pw s2pi y_obs) (some ["sigma"]) [bds]

/-- The forward-model adapter collaborator (spec section 6): exposes
`input_size`, `param_names`, `bounds`, `device`, and an input-side
configuration snapshot `_get_config()`, modelled as the `config` field.
`κ` is the type of configuration values. -/
structure Adapter (κ : Type) where
  input_size : ℕ
  param_names : List String
  bounds : List (ℚ × ℚ)
  device : Device
  config : List (AttrName × κ)

/-- The SED forward model (`MultiwavelengthSED` collaborator): owns the
adapter, the detector-side configuration snapshot, and the forward call
`run p_model = (photometric predictions, out-of-bounds flag per row)`,
i.e. `sed_model(p_model, return_ph=True, check_bounds=True)`. -/
structure SedModel (κ : Type) where
  adapter : Adapter κ
  detector_config : List (AttrName × κ)
  run : List ℚ → List ℚ × Bool

/-- Modelled from the spec: `MultiwavelengthSED.input_size` is repository
code outside src/; per spec section 6 the adapter exposes `input_size`, and
the split point of `Posterior.forward` is the model input size. -/
def SedModel.input_size {κ : Type} (m : SedModel κ) : ℕ := m.adapter.input_size

/-- Modelled from the spec: `sed_model.configure_input_mode(**options)`
(spec section 6) replaces the adapter-side configuration. -/
def SedModel.configure_input_mode {κ : Type} (m : SedModel κ)
    (ca : List (AttrName × κ)) : SedModel κ :=
  { m with adapter := { m.adapter with config := ca } }

/-- Modelled from the spec: `sed_model.configure_output_mode(**options)`
(spec section 6) replaces the detector-side configuration. -/
def SedModel.configure_output_mode {κ : Type} (m : SedModel κ)
    (cd : List (AttrName × κ)) : SedModel κ :=
  { m with detector_config := cd }

/-- The mutable instance state of a `Posterior` (lines 119-227):
the SED model, the error kernel (`none` while the attribute has never been
assigned, which raises `AttributeError` on access), and the output-mode
state set by `configure_output_mode`. -/
structure PosteriorState (κ : Type) where
  sed_model : SedModel κ
  error_func : Option ErrorFunction
  output_mode : String
  sign : ℚ
  log_out : ℚ

/-- Python float conversion of a bool (multiplying a boolean tensor into a
float expression). -/
def boolToRat (b : Bool) : ℚ := if b then 1 else 0

/-- `Posterior.configure_output_mode` (lines 165-190).  The statements are
executed in source order: the mode is validated first and a `ValueError`
naming the rejected value is raised before `_sign` or `log_out` is
assigned; `Except.error` carries the state as mutated at the raise point. -/
def Posterior.configure_output_mode {κ : Type} (p : PosteriorState κ)
    (output_mode : String) (negative : Bool) (log_out : ℚ) :
    Except (String × PosteriorState κ) (PosteriorState κ) :=
  if output_mode = "torch" ∨ output_mode = "numpy" ∨ output_mode = "numpy_grad" then
    let p1 := { p with output_mode := output_mode }
    let p2 := { p1 with sign := if negative then -1 else 1 }
    Except.ok { p2 with log_out := log_out }
  else
    Except.error ("Unknown output mode: " ++ output_mode ++ ".", p)

/-- `Posterior.__init__` (lines 130-133): stores `sed_model` and calls
`configure_output_mode()` with its defaults
(`output_mode='torch'`, `negative=False`, `log_out=-1e15`).  The
`error_func` attribute is never assigned.  The placeholder fields of
`start` are all overwritten by the configure call, which succeeds on the
default mode. -/
def posteriorInit {κ : Type} (m : SedModel κ) : PosteriorState κ :=
  let start : PosteriorState κ :=
    { sed_model := m, error_func := none, output_mode := "", sign := 0, log_out := 0 }
  match Posterior.configure_output_mode start "torch" false (-(10 ^ 15)) with
  | Except.ok p => p
  | Except.error e => e.2

/-- The log-posterior value computed by `Posterior.forward`
(lines 136-162) for one row of parameters: split the vector at the model
input size, run the forward model, OR the out-of-bounds flag with
`check_bounds` exactly when the kernel declares free parameters, and
return `sign * (score + log_out * flag)`.  All three output modes return
this value (the numpy modes additionally detach/squeeze, which does not
change it); `none` models the `AttributeError` raised when `error_func`
was never assigned. -/
def Posterior.log_post {κ : Type} (p : PosteriorState κ) (params : List ℚ) : Option ℚ :=
  p.error_func.map fun ef =>
    let msize := SedModel.input_size p.sed_model
    let p_model := params.take msize
    let p_error := params.drop msize
    let out := p.sed_model.run p_model
    let flag := if 0 < ef.n_params then out.2 || ef.check_bounds p_error else out.2
    p.sign * (ef.score out.1 p_error + p.log_out * boolToRat flag)

/-- Placement metadata of the parameter tensor constructed by
`Posterior.forward` (lines 138-148): in `numpy_grad` mode the code calls
`torch.tensor(params, dtype=torch.float32, requires_grad=True)` with no
`device=` argument, so the tensor lands on the default device (CPU);
in the other modes it calls
`torch.as_tensor(..., device=self.sed_model.adapter.device)`. -/
structure TensorMeta where
  device : Device
  requires_grad : Bool
deriving DecidableEq, Repr

/-- The device and gradient flag of the parameter tensor built at the top
of `Posterior.forward` (lines 138-148), as a function of the stored output
mode. -/
def Posterior.forwardTensorMeta {κ : Type} (p : PosteriorState κ) : TensorMeta :=
  if p.output_mode = "numpy_grad" then ⟨Device.cpu, true⟩
  else ⟨p.sed_model.adapter.device, false⟩

/-- `Posterior.input_size` property (lines 212-215):
`sed_model.adapter.input_size + error_func.n_params`, recomputed on each
access; `none` models the `AttributeError` when `error_func` is unset. -/
def Posterior.input_size {κ : Type} (p : PosteriorState κ) : Option ℕ :=
  p.error_func.map fun ef => p.sed_model.adapter.input_size + ef.n_params

/-- `Posterior.param_names` property (lines 218-221):
`sed_model.adapter.param_names + error_func.param_names`. -/
def Posterior.param_names {κ : Type} (p : PosteriorState κ) : Option (List String) :=
  p.error_func.map fun ef => p.sed_model.adapter.param_names ++ ef.param_names

/-- `Posterior.bounds` property (lines 224-227):
`np.vstack([sed_model.adapter.bounds, error_func.bounds])`; vertical
stacking of rows is list append. -/
def Posterior.bounds {κ : Type} (p : PosteriorState κ) : Option (List (ℚ × ℚ)) :=
  p.error_func.map fun ef => p.sed_model.adapter.bounds ++ ef.bounds

/-- An `InferenceState` snapshot (lines 230-251): the error kernel, the
user payload `data : δ`, and the dynamically named attributes set by
`__init__` via `setattr(self, 'adapter.' + key, val)` and
`setattr(self, 'detector.' + key, val)`.  The built-in attribute names of
`nn.Module` contain neither "adapter" nor "detector", so only the
explicitly set attributes matter to `get_config` and are modelled. -/
structure InferenceState (κ δ : Type) where
  error_func : ErrorFunction
  data : δ
  attrs : List (AttrName × κ)

/-- `InferenceState.__init__` (lines 231-240): store the kernel and
payload, and flatten the two configuration mappings into prefixed
attribute names. -/
def mkInferenceState {κ δ : Type} (ef : ErrorFunction)
    (config_adapter config_detector : List (AttrName × κ)) (data : δ) :
    InferenceState κ δ :=
  ⟨ef, data,
    (config_adapter.map fun kv => (adapterDot ++ kv.1, kv.2)) ++
      (config_detector.map fun kv => (detectorDot ++ kv.1, kv.2))⟩

/-- One step of the `get_config` scan (lines 247-248): an attribute whose
name contains the substring "adapter" contributes its value to the adapter
mapping under `name.replace('adapter.', '')`. -/
def adapterEntry {κ : Type} (nv : AttrName × κ) : Option (AttrName × κ) :=
  if containsSub adapterSub nv.1 then some (stripAll adapterDot nv.1, nv.2) else none

/-- One step of the `get_config` scan (lines 249-250): an attribute whose
name contains the substring "detector" contributes its value to the
detector mapping under `name.replace('detector.', '')`. -/
def detectorEntry {κ : Type} (nv : AttrName × κ) : Option (AttrName × κ) :=
  if containsSub detectorSub nv.1 then some (stripAll detectorDot nv.1, nv.2) else none

/-- `InferenceState.get_config` (lines 243-251): scan the attributes; any
name containing the substring "adapter" goes to the adapter mapping under
`name.replace('adapter.', '')`, and any name containing "detector" goes to
the detector mapping under `name.replace('detector.', '')` (both tests are
applied to every attribute). -/
def InferenceState.get_config {κ δ : Type} (st : InferenceState κ δ) :
    List (AttrName × κ) × List (AttrName × κ) :=
  (st.attrs.filterMap adapterEntry, st.attrs.filterMap detectorEntry)

/-- Key hygiene for a flattened configuration: no key contains "adapter"
or "detector" as a substring, so the stringly-typed flattening convention
of `InferenceState` cannot misroute or over-strip it. -/
def keysClean {κ : Type} (l : List (AttrName × κ)) : Bool :=
  l.all fun kv => !(containsSub adapterSub kv.1) && !(containsSub detectorSub kv.1)

/-- `Posterior.save_inference_state` (lines 193-197): snapshot the error
kernel, the adapter and detector configurations, and the user payload.
Modelled from the spec: `adapter._get_config()` / `detector._get_config()`
are collaborator code outside src/ returning the flat configuration
mappings (spec section 6), and `torch.save`/`torch.load` preserve the
object graph (spec section 6, persistence primitive), so saving is
modelled as producing the snapshot itself.  `none` models the
`AttributeError` when `error_func` was never assigned. -/
def Posterior.save_inference_state {κ δ : Type} (p : PosteriorState κ) (data : δ) :
    Option (InferenceState κ δ) :=
  p.error_func.map fun ef =>
    mkInferenceState ef p.sed_model.adapter.config p.sed_model.detector_config data

/-- `Posterior.load_inference_state` (lines 200-209), on an in-memory
snapshot (the `isinstance(target, InferenceState)` branch): install the
snapshot's kernel, reconfigure the model's input and output sides from the
unflattened mappings, and return the snapshot's payload. -/
def Posterior.load_inference_state {κ δ : Type} (p : PosteriorState κ)
    (st : InferenceState κ δ) : PosteriorState κ × δ :=
  let p1 := { p with error_func := some st.error_func }
  let cfgs := st.get_config
  let m1 := SedModel.configure_input_mode p1.sed_model cfgs.1
  let m2 := SedModel.configure_output_mode m1 cfgs.2
  ({ p1 with sed_model := m2 }, st.data)

/-- The state carried through the `optimize` loop (lines 308-316): the
learnable parameter vector (`OptimizerWrapper.params`) and its accumulated
gradient buffer. -/
structure OptLoopState where
  params : List ℚ
  grads : List ℚ

/-- One iteration of the `optimize` loop body (lines 310-313):
`loss = model(); loss.backward(); opt.step(); opt.zero_grad()`.
`gradOf` models reverse-mode differentiation of the loss at the current
parameters (an external capability, spec section 9); `backward`
accumulates it into the gradient buffer.  `optStep` models the arbitrary
PyTorch optimizer `cls_opt` updating the parameters from the gradients;
`zero_grad` clears the buffer.  The loss value itself is only displayed on
the progress bar and does not feed the state. -/
def optIteration (gradOf : List ℚ → List ℚ) (optStep : List ℚ → List ℚ → List ℚ)
    (s : OptLoopState) : OptLoopState :=
  let g := List.zipWith (fun a b => a + b) s.grads (gradOf s.params)
  let newParams := optStep s.params g
  { params := newParams, grads := g.map fun _ => 0 }

/-- `optimize` (lines 280-318): wrap `x0` as the sole learnable vector
(the posterior itself is hidden in a tuple and contributes no learnable
state), run the loop body once per element of `range(n_step)`, and return
`model.params.detach()` — the final parameter values (detaching drops the
gradient graph, not the values).  The fresh `nn.Parameter` starts with a
zero gradient buffer. -/
def optimize (gradOf : List ℚ → List ℚ) (optStep : List ℚ → List ℚ → List ℚ)
    (x0 : List ℚ) (n_step : ℕ) : List ℚ :=
  (((List.range n_step).foldl (fun s _ => optIteration gradOf optStep s)
    ⟨x0, x0.map fun _ => 0⟩)).params

/-- A trivial stand-in for `torch.log` used by concrete witnesses (the
claims hold for every interpretation of the transcendental primitives). -/
def zeroFun : ℚ → ℚ := fun _ => 0

/-- A concrete forward-model adapter used by witnesses: one model
parameter bounded in [0, 1], living on the CPU. -/
def sampleAdapter : Adapter Unit :=
  ⟨1, ["x"], [(0, 1)], Device.cpu, []⟩

/-- A concrete SED model used by witnesses: predicts `[0]` and reports no
bound violation. -/
def sampleSed : SedModel Unit :=
  ⟨sampleAdapter, [], fun _ => ([0], false)⟩

/-- A concrete fixed-noise Gaussian kernel used by witnesses. -/
def sampleEf : ErrorFunction := mkGaussian zeroFun 0 [0] [1] false

/-- A concrete posterior with an installed kernel, used by witnesses. -/
def samplePost : PosteriorState Unit :=
  { sed_model := sampleSed, error_func := some sampleEf,
    output_mode := "torch", sign := 1, log_out := -(10 ^ 15) }

/-- A concrete single-scatter kernel with the default log-scale bounds,
used by witnesses. -/
def sampleScatter : ErrorFunction :=
  mkGaussianWithScatter zeroFun zeroFun 0 [0] (-2, 0)

/-- An adapter configured to run on an accelerator, used by the device
counterexample. -/
def cudaAdapter : Adapter Unit :=
  ⟨1, ["x"], [(0, 1)], Device.cuda, []⟩

/-- A SED model on the accelerator. -/
def cudaSed : SedModel Unit :=
  ⟨cudaAdapter, [], fun _ => ([0], false)⟩

/-- A posterior in `numpy_grad` output mode whose adapter is configured
for the accelerator. -/
def gradPost : PosteriorState Unit :=
  { sed_model := cudaSed, error_func := some sampleEf,
    output_mode := "numpy_grad", sign := 1, log_out := -(10 ^ 15) }

/-- A concrete adapter-side configuration used by the round-trip witness:
the single key "mode". -/
def sampleConfigA : List (AttrName × ℚ) := [(['m', 'o', 'd', 'e'], 1)]

/-- A concrete detector-side configuration used by the round-trip witness:
the single key "band". -/
def sampleConfigD : List (AttrName × ℚ) := [(['b', 'a', 'n', 'd'], 2)]

/-- An adapter carrying a concrete input-side configuration. -/
def ratAdapter : Adapter ℚ := ⟨1, ["x"], [(0, 1)], Device.cpu, sampleConfigA⟩

/-- A SED model carrying concrete adapter and detector configurations. -/
def ratSed : SedModel ℚ := ⟨ratAdapter, sampleConfigD, fun _ => ([0], false)⟩

/-- A posterior with an installed kernel and concrete configurations, used
as the save side of the round-trip witness. -/
def savePost : PosteriorState ℚ :=
  { sed_model := ratSed, error_func := some sampleEf,
    output_mode := "torch", sign := 1, log_out := -(10 ^ 15) }

/-! ### Helper lemmas: list sums and scans -/

theorem mapSumEq (f : ℚ → ℚ) (xs : List ℚ) :
    (xs.map f).sum = ∑ i ∈ Finset.range xs.length, f (xs.getD i 0) := by
  induction xs with
  | nil => simp
  | cons x xs ih =>
    rw [List.map_cons, List.sum_cons, ih,
      show (x :: xs).length = xs.length + 1 from rfl, Finset.sum_range_succ']
    simp only [List.getD_cons_succ, List.getD_cons_zero]
    ring

theorem zipPairSumEq (f : ℚ × ℚ → ℚ) (xs ys : List ℚ) (h : xs.length = ys.length) :
    ((xs.zip ys).map f).sum =
      ∑ i ∈ Finset.range ys.length, f (xs.getD i 0, ys.getD i 0) := by
  induction ys generalizing xs with
  | nil =>
    cases xs with
    | nil => simp
    | cons x xs => simp at h
  | cons y ys ih =>
    cases xs with
    | nil => simp at h
    | cons x xs =>
      have h' : xs.length = ys.length := by simpa using h
      rw [List.zip_cons_cons, List.map_cons, List.sum_cons, ih xs h',
        show (y :: ys).length = ys.length + 1 from rfl, Finset.sum_range_succ']
      simp only [List.getD_cons_succ, List.getD_cons_zero]
      ring

theorem zipTripleSumEq (f : ℚ × ℚ × ℚ → ℚ) (xs ys zs : List ℚ)
    (hx : xs.length = ys.length) (hz : zs.length = ys.length) :
    ((xs.zip (ys.zip zs)).map f).sum =
      ∑ i ∈ Finset.range ys.length, f (xs.getD i 0, ys.getD i 0, zs.getD i 0) := by
  induction ys generalizing xs zs with
  | nil =>
    cases xs with
    | nil => simp
    | cons x xs => simp at hx
  | cons y ys ih =>
    cases xs with
    | nil => simp at hx
    | cons x xs =>
      cases zs with
      | nil => simp at hz
      | cons z zs =>
        have hx' : xs.length = ys.length := by simpa using hx
        have hz' : zs.length = ys.length := by simpa using hz
        rw [List.zip_cons_cons, List.zip_cons_cons, List.map_cons, List.sum_cons,
          ih xs zs hx' hz',
          show (y :: ys).length = ys.length + 1 from rfl, Finset.sum_range_succ']
        simp only [List.getD_cons_succ, List.getD_cons_zero]
        ring

theorem anyZipIff (f : ℚ × ℚ → Bool) (xs ys : List ℚ) (h : xs.length = ys.length) :
    ((xs.zip ys).any f) = true ↔
      ∃ i, i < ys.length ∧ f (xs.getD i 0, ys.getD i 0) = true := by
  induction ys generalizing xs with
  | nil =>
    cases xs with
    | nil => simp
    | cons x xs => simp at h
  | cons y ys ih =>
    cases xs with
    | nil => simp at h
    | cons x xs =>
      have h' : xs.length = ys.length := by simpa using h
      rw [List.zip_cons_cons]
      simp only [List.any_cons, Bool.or_eq_true, ih xs h', List.length_cons]
      constructor
      · rintro (hf | ⟨i, hi, hfi⟩)
        · exact ⟨0, Nat.succ_pos _, by simpa using hf⟩
        · exact ⟨i + 1, Nat.succ_lt_succ hi, by simpa using hfi⟩
      · rintro ⟨i, hi, hfi⟩
        cases i with
        | zero => exact Or.inl (by simpa using hfi)
        | succ i => exact Or.inr ⟨i, Nat.lt_of_succ_lt_succ hi, by simpa using hfi⟩

/-! ### Claim theorems -/

/-- C2: for a kernel with `n_params > 0` and a full parameter row,
`check_bounds` returns true iff some declared parameter sits at or beyond
its bound (inclusive boundary counts), and returns false when every
parameter is strictly inside its bounds. -/
theorem check_bounds_iff_some_at_or_beyond (e : ErrorFunction) (params : List ℚ)
    (_hn : 0 < e.n_params) (hp : params.length = e.n_params)
    (hb : e.bounds.length = e.n_params) :
    (e.check_bounds params = true ↔
      ∃ i, i < e.n_params ∧
        (params.getD i 0 ≤ e.lbounds.getD i 0 ∨ e.ubounds.getD i 0 ≤ params.getD i 0)) ∧
    ((∀ i, i < e.n_params →
        e.lbounds.getD i 0 < params.getD i 0 ∧ params.getD i 0 < e.ubounds.getD i 0) →
      e.check_bounds params = false) := by
  have hl : e.lbounds.length = e.n_params := by
    simp [ErrorFunction.lbounds, hb]
  have hu : e.ubounds.length = e.n_params := by
    simp [ErrorFunction.ubounds, hb]
  have h1 := anyZipIff (fun t => decide (t.1 ≤ t.2)) params e.lbounds (hp.trans hl.symm)
  have h2 := anyZipIff (fun t => decide (t.2 ≤ t.1)) params e.ubounds (hp.trans hu.symm)
  rw [hl] at h1
  rw [hu] at h2
  have hiff : e.check_bounds params = true ↔
      ∃ i, i < e.n_params ∧
        (params.getD i 0 ≤ e.lbounds.getD i 0 ∨ e.ubounds.getD i 0 ≤ params.getD i 0) := by
    rw [ErrorFunction.check_bounds, Bool.or_eq_true, h1, h2]
    simp only [decide_eq_true_eq]
    constructor
    · rintro (⟨i, hi, hle⟩ | ⟨i, hi, hge⟩)
      · exact ⟨i, hi, Or.inl hle⟩
      · exact ⟨i, hi, Or.inr hge⟩
    · rintro ⟨i, hi, hle | hge⟩
      · exact Or.inl ⟨i, hi, hle⟩
      · exact Or.inr ⟨i, hi, hge⟩
  refine ⟨hiff, fun hin => ?_⟩
  cases hcb : e.check_bounds params with
  | false => rfl
  | true =>
    obtain ⟨i, hi, hor⟩ := hiff.mp hcb
    obtain ⟨hlt, hgt⟩ := hin i hi
    rcases hor with hle | hge
    · exact absurd hle (not_le.mpr hlt)
    · exact absurd hge (not_le.mpr hgt)

/-- C2 witness: the single-scatter kernel with default bounds, evaluated
at the lower boundary `log_sigma = -2`, which counts as a violation. -/
theorem check_bounds_iff_some_at_or_beyond_witness :
    0 < sampleScatter.n_params ∧
    ((sampleScatter.check_bounds [-2] = true ↔
        ∃ i, i < sampleScatter.n_params ∧
          (List.getD [(-2 : ℚ)] i 0 ≤ sampleScatter.lbounds.getD i 0 ∨
            sampleScatter.ubounds.getD i 0 ≤ List.getD [(-2 : ℚ)] i 0)) ∧
      ((∀ i, i < sampleScatter.n_params →
          sampleScatter.lbounds.getD i 0 < List.getD [(-2 : ℚ)] i 0 ∧
            List.getD [(-2 : ℚ)] i 0 < sampleScatter.ubounds.getD i 0) →
        sampleScatter.check_bounds [-2] = false)) :=
  ⟨by decide,
    check_bounds_iff_some_at_or_beyond sampleScatter [-2] (by decide) (by decide)
      (by decide)⟩

/-- C3: the single-scatter Gaussian kernel declares the single log-scale
parameter `sigma` with the given bounds, and its score on a prediction row
is `sum(-0.5*((pred-obs)/sigma)^2) - M*log(sqrt(2*pi)*sigma)` with
`sigma = 10^log_sigma` (modelled by `pw`) and `M` the number of
observation dimensions. -/
theorem gaussianWithScatter_score_eq (lg pw : ℚ → ℚ) (s2pi : ℚ)
    (y_obs y_pred : List ℚ) (bds : ℚ × ℚ) (log_sigma : ℚ)
    (h : y_pred.length = y_obs.length) :
    (mkGaussianWithScatter lg pw s2pi y_obs bds).score y_pred [log_sigma] =
      (∑ i ∈ Finset.range y_obs.length,
        -(1 / 2) * ((y_pred.getD i 0 - y_obs.getD i 0) / pw log_sigma) ^ 2) -
      (y_obs.length : ℚ) * lg (s2pi * pw log_sigma) ∧
    (mkGaussianWithScatter lg pw s2pi y_obs bds).n_params = 1 ∧
    (mkGaussianWithScatter lg pw s2pi y_obs bds).param_names = ["sigma"] ∧
    (mkGaussianWithScatter lg pw s2pi y_obs bds).bounds = [bds] := by
  refine ⟨?_, rfl, rfl, rfl⟩
  show scatterScore lg pw s2pi y_obs y_pred [log_sigma] = _
  rw [scatterScore]
  simp only [List.headD_cons]
  rw [zipPairSumEq
    (fun t => -(1 / 2) * (((t.1 - t.2) / pw log_sigma) * ((t.1 - t.2) / pw log_sigma)))
    y_pred y_obs h]
  congr 1
  exact Finset.sum_congr rfl fun i _ => by ring

/-- C3 witness: a concrete one-dimensional observation with the default
bounds, evaluated at `log_sigma = -1`. -/
theorem gaussianWithScatter_score_eq_witness :
    ([(0 : ℚ)].length = [(0 : ℚ)].length) ∧
    ((mkGaussianWithScatter zeroFun zeroFun 0 [0] (-2, 0)).score [0] [-1] =
      (∑ i ∈ Finset.range ([(0 : ℚ)].length),
        -(1 / 2) * (List.getD [(0 : ℚ)] i 0 - List.getD [(0 : ℚ)] i 0) ^ 2 *
          (1 / zeroFun (-1)) ^ 2) -
      (([(0 : ℚ)].length : ℚ)) * zeroFun (0 * zeroFun (-1)) ∧
    (mkGaussianWithScatter zeroFun zeroFun 0 [0] (-2, 0)).n_params = 1 ∧
    (mkGaussianWithScatter zeroFun zeroFun 0 [0] (-2, 0)).param_names = ["sigma"] ∧
    (mkGaussianWithScatter zeroFun zeroFun 0 [0] (-2, 0)).bounds = [(-2, 0)]) := by
  refine ⟨rfl, ?_⟩
  have h := gaussianWithScatter_score_eq zeroFun zeroFun 0 [0] [0] (-2, 0) (-1) rfl
  refine ⟨?_, h.2⟩
  rw [h.1]
  congr 1
  exact Finset.sum_congr rfl fun i _ => by unfold zeroFun; ring

/-- C4: the fixed-noise Gaussian kernel scores
`sum(-0.5*((pred-obs)/err)^2)` exactly when `norm=False`; with `norm=True`
it adds the constant `sum(-log(sqrt(2*pi)*err))`; and the kernel declares
zero free parameters. -/
theorem gaussian_score_eq (lg : ℚ → ℚ) (s2pi : ℚ)
    (y_obs y_err y_pred p_error : List ℚ)
    (h1 : y_pred.length = y_obs.length) (h2 : y_err.length = y_obs.length) :
    ((mkGaussian lg s2pi y_obs y_err false).score y_pred p_error =
      ∑ i ∈ Finset.range y_obs.length,
        -(1 / 2) * ((y_pred.getD i 0 - y_obs.getD i 0) / y_err.getD i 0) ^ 2) ∧
    ((mkGaussian lg s2pi y_obs y_err true).score y_pred p_error =
      (∑ i ∈ Finset.range y_obs.length,
        -(1 / 2) * ((y_pred.getD i 0 - y_obs.getD i 0) / y_err.getD i 0) ^ 2) +
      ∑ i ∈ Finset.range y_err.length, -(lg (s2pi * y_err.getD i 0))) ∧
    (∀ norm : Bool, (mkGaussian lg s2pi y_obs y_err norm).n_params = 0) := by
  have hcore : ∀ norm : Bool,
      (mkGaussian lg s2pi y_obs y_err norm).score y_pred p_error =
        (∑ i ∈ Finset.range y_obs.length,
          -(1 / 2) * ((y_pred.getD i 0 - y_obs.getD i 0) / y_err.getD i 0) ^ 2) +
        gaussianNormConst lg s2pi y_err norm := by
    intro norm
    show gaussianScore lg s2pi y_obs y_err norm y_pred p_error = _
    rw [gaussianScore]
    rw [zipTripleSumEq
      (fun t => -(1 / 2) * (((t.1 - t.2.1) / t.2.2) * ((t.1 - t.2.1) / t.2.2)))
      y_pred y_obs y_err h1 h2]
    congr 1
    exact Finset.sum_congr rfl fun i _ => by ring
  refine ⟨?_, ?_, fun norm => rfl⟩
  · rw [hcore false]
    simp [gaussianNormConst]
  · rw [hcore true]
    congr 1
    rw [gaussianNormConst, mapSumEq (fun e => -(lg (s2pi * e))) y_err]
    simp

/-- C4 witness: a concrete one-dimensional observation with unit
uncertainty. -/
theorem gaussian_score_eq_witness :
    ([(0 : ℚ)].length = [(0 : ℚ)].length) ∧ ([(1 : ℚ)].length = [(0 : ℚ)].length) ∧
    (((mkGaussian zeroFun 0 [0] [1] false).score [0] [] =
      ∑ i ∈ Finset.range ([(0 : ℚ)].length),
        -(1 / 2) * ((List.getD [(0 : ℚ)] i 0 - List.getD [(0 : ℚ)] i 0) /
          List.getD [(1 : ℚ)] i 0) ^ 2) ∧
    ((mkGaussian zeroFun 0 [0] [1] true).score [0] [] =
      (∑ i ∈ Finset.range ([(0 : ℚ)].length),
        -(1 / 2) * ((List.getD [(0 : ℚ)] i 0 - List.getD [(0 : ℚ)] i 0) /
          List.getD [(1 : ℚ)] i 0) ^ 2) +
      ∑ i ∈ Finset.range ([(1 : ℚ)].length), -(zeroFun (0 * List.getD [(1 : ℚ)] i 0))) ∧
    (∀ norm : Bool, (mkGaussian zeroFun 0 [0] [1] norm).n_params = 0)) :=
  ⟨rfl, rfl, gaussian_score_eq zeroFun 0 [0] [1] [0] [] rfl rfl⟩

/-- C1: for every parameter vector, the log-posterior returned by the
forward pass equals `sign * (error_score + log_out * flag)`, where the
forward model's out-of-bounds flag is OR-ed with `check_bounds(p_error)`
exactly when the kernel has free parameters, and is left unchanged when
`n_params = 0`; the penalty is added to the score, never substituted. -/
theorem log_post_formula {κ : Type} (p : PosteriorState κ) (params : List ℚ)
    (ef : ErrorFunction) (h : p.error_func = some ef) :
    (0 < ef.n_params →
      Posterior.log_post p params =
        some (p.sign *
          (ef.score (p.sed_model.run (List.take (SedModel.input_size p.sed_model) params)).1
              (List.drop (SedModel.input_size p.sed_model) params) +
            p.log_out *
              boolToRat
                ((p.sed_model.run (List.take (SedModel.input_size p.sed_model) params)).2 ||
                  ef.check_bounds (List.drop (SedModel.input_size p.sed_model) params))))) ∧
    (ef.n_params = 0 →
      Posterior.log_post p params =
        some (p.sign *
          (ef.score (p.sed_model.run (List.take (SedModel.input_size p.sed_model) params)).1
              (List.drop (SedModel.input_size p.sed_model) params) +
            p.log_out *
              boolToRat
                (p.sed_model.run (List.take (SedModel.input_size p.sed_model) params)).2))) := by
  constructor
  · intro hn
    rw [Posterior.log_post, h]
    simp only [Option.map_some']
    simp [hn]
  · intro hn
    rw [Posterior.log_post, h]
    simp only [Option.map_some']
    simp [hn]

/-- C1 witness: the sample posterior with the zero-parameter Gaussian
kernel, evaluated on a concrete two-entry parameter vector. -/
theorem log_post_formula_witness :
    samplePost.error_func = some sampleEf ∧
    Posterior.log_post samplePost [0, 5] =
      some (samplePost.sign *
        (sampleEf.score
            (samplePost.sed_model.run
              (List.take (SedModel.input_size samplePost.sed_model) [0, 5])).1
            (List.drop (SedModel.input_size samplePost.sed_model) [0, 5]) +
          samplePost.log_out *
            boolToRat
              (samplePost.sed_model.run
                (List.take (SedModel.input_size samplePost.sed_model) [0, 5])).2)) :=
  ⟨rfl, (log_post_formula samplePost [0, 5] sampleEf rfl).2 rfl⟩

/-- C5: `configure_output_mode` rejects any mode other than the three
valid strings with an invalid-argument error naming the rejected value,
leaving the mode, sign and penalty fields untouched (the error carries the
entry state); with a valid mode it sets mode, sign (`-1` iff `negative`)
and the penalty constant. -/
theorem configure_output_mode_spec {κ : Type} (p : PosteriorState κ) (mode : String)
    (negative : Bool) (lo : ℚ) :
    (mode ≠ "torch" → mode ≠ "numpy" → mode ≠ "numpy_grad" →
      Posterior.configure_output_mode p mode negative lo =
        Except.error ("Unknown output mode: " ++ mode ++ ".", p)) ∧
    (mode = "torch" ∨ mode = "numpy" ∨ mode = "numpy_grad" →
      Posterior.configure_output_mode p mode negative lo =
        Except.ok { p with output_mode := mode,
                           sign := if negative then -1 else 1,
                           log_out := lo }) := by
  constructor
  · intro h1 h2 h3
    have hno : ¬(mode = "torch" ∨ mode = "numpy" ∨ mode = "numpy_grad") := by
      rintro (h | h | h)
      · exact h1 h
      · exact h2 h
      · exact h3 h
    rw [Posterior.configure_output_mode, if_neg hno]
  · intro hv
    rw [Posterior.configure_output_mode, if_pos hv]

/-- C5 witness: the rejected mode "foo" leaves the sample posterior
untouched inside the error value; the valid mode "numpy" with
`negative=True` installs mode, sign and penalty. -/
theorem configure_output_mode_spec_witness :
    Posterior.configure_output_mode samplePost "foo" true 7 =
      Except.error ("Unknown output mode: " ++ "foo" ++ ".", samplePost) ∧
    Posterior.configure_output_mode samplePost "numpy" true 7 =
      Except.ok { samplePost with output_mode := "numpy",
                                  sign := if true then -1 else 1,
                                  log_out := 7 } :=
  ⟨(configure_output_mode_spec samplePost "foo" true 7).1 (by decide) (by decide)
      (by decide),
   (configure_output_mode_spec samplePost "numpy" true 7).2 (Or.inr (Or.inl rfl))⟩

/-- C7 (code bug): `Posterior.__init__` (lines 130-133) documents an
`error_func` parameter in its class docstring but never accepts or assigns
one, so a freshly constructed posterior has no error-function instance:
every derived accessor and the forward pass hit a missing attribute
(modelled by `none`) until `load_inference_state` installs a kernel. -/
theorem posteriorInit_missing_error_func {κ δ : Type} (m : SedModel κ)
    (params : List ℚ) (st : InferenceState κ δ) :
    (posteriorInit m).error_func = none ∧
    Posterior.input_size (posteriorInit m) = none ∧
    Posterior.param_names (posteriorInit m) = none ∧
    Posterior.bounds (posteriorInit m) = none ∧
    Posterior.log_post (posteriorInit m) params = none ∧
    (Posterior.load_inference_state (posteriorInit m) st).1.error_func =
      some st.error_func := by
  have hinit : posteriorInit m =
      { sed_model := m, error_func := none, output_mode := "torch", sign := 1,
        log_out := -(10 ^ 15) } := by
    rw [posteriorInit, Posterior.configure_output_mode]
    simp
  rw [hinit]
  exact ⟨rfl, rfl, rfl, rfl, rfl, rfl⟩

/-- C8: with a kernel installed and both the adapter and the kernel
internally consistent, `param_names` has exactly `input_size` entries and
`bounds` has exactly `input_size` rows; and all three accessors are
recomputed from the current model + error composition, so swapping the
kernel is reflected immediately. -/
theorem derived_accessors_consistent {κ : Type} (p : PosteriorState κ)
    (ef : ErrorFunction) (he : p.error_func = some ef)
    (hm1 : p.sed_model.adapter.param_names.length = p.sed_model.adapter.input_size)
    (hm2 : p.sed_model.adapter.bounds.length = p.sed_model.adapter.input_size)
    (he1 : ef.param_names.length = ef.n_params)
    (he2 : ef.bounds.length = ef.n_params) :
    Posterior.input_size p = some (p.sed_model.adapter.input_size + ef.n_params) ∧
    (Posterior.param_names p).map List.length =
      some (p.sed_model.adapter.input_size + ef.n_params) ∧
    (Posterior.bounds p).map List.length =
      some (p.sed_model.adapter.input_size + ef.n_params) ∧
    (∀ ef' : ErrorFunction,
      Posterior.input_size { p with error_func := some ef' } =
        some (p.sed_model.adapter.input_size + ef'.n_params) ∧
      Posterior.param_names { p with error_func := some ef' } =
        some (p.sed_model.adapter.param_names ++ ef'.param_names) ∧
      Posterior.bounds { p with error_func := some ef' } =
        some (p.sed_model.adapter.bounds ++ ef'.bounds)) := by
  refine ⟨?_, ?_, ?_, fun ef' => ⟨rfl, rfl, rfl⟩⟩
  · rw [Posterior.input_size, he]
    rfl
  · rw [Posterior.param_names, he]
    simp [hm1, he1]
  · rw [Posterior.bounds, he]
    simp [hm2, he2]

/-- C8 witness: the sample posterior (one model parameter, zero-parameter
Gaussian kernel) instantiating every hypothesis concretely. -/
theorem derived_accessors_consistent_witness :
    samplePost.error_func = some sampleEf ∧
    samplePost.sed_model.adapter.param_names.length =
      samplePost.sed_model.adapter.input_size ∧
    (Posterior.input_size samplePost =
      some (samplePost.sed_model.adapter.input_size + sampleEf.n_params) ∧
    (Posterior.param_names samplePost).map List.length =
      some (samplePost.sed_model.adapter.input_size + sampleEf.n_params) ∧
    (Posterior.bounds samplePost).map List.length =
      some (samplePost.sed_model.adapter.input_size + sampleEf.n_params) ∧
    (∀ ef' : ErrorFunction,
      Posterior.input_size { samplePost with error_func := some ef' } =
        some (samplePost.sed_model.adapter.input_size + ef'.n_params) ∧
      Posterior.param_names { samplePost with error_func := some ef' } =
        some (samplePost.sed_model.adapter.param_names ++ ef'.param_names) ∧
      Posterior.bounds { samplePost with error_func := some ef' } =
        some (samplePost.sed_model.adapter.bounds ++ ef'.bounds))) :=
  ⟨rfl, rfl,
    derived_accessors_consistent samplePost sampleEf rfl rfl rfl rfl rfl⟩

/-- C9 counterexample: with the adapter configured for the accelerator and
the output mode set to `numpy_grad`, the parameter tensor built by the
forward pass is NOT placed on the adapter's device — the source calls
`torch.tensor(params, dtype=torch.float32, requires_grad=True)` with no
`device=` argument, so the tensor lands on the default (CPU) device. -/
theorem forward_tensor_device_counterexample :
    (Posterior.forwardTensorMeta gradPost).device ≠ gradPost.sed_model.adapter.device := by
  decide

/-- C9 amended: in the 'torch' and 'numpy' output modes the parameter
tensor is placed on the forward-model adapter's configured device; in
'numpy_grad' mode it is constructed without a device argument, i.e. on the
default (CPU) device, with gradient tracking enabled. -/
theorem forward_tensor_device_amended {κ : Type} (p : PosteriorState κ) :
    (p.output_mode = "torch" ∨ p.output_mode = "numpy" →
      Posterior.forwardTensorMeta p = ⟨p.sed_model.adapter.device, false⟩) ∧
    (p.output_mode = "numpy_grad" →
      Posterior.forwardTensorMeta p = ⟨Device.cpu, true⟩) := by
  constructor
  · intro h
    have hne : p.output_mode ≠ "numpy_grad" := by
      rcases h with h | h <;> rw [h] <;> decide
    rw [Posterior.forwardTensorMeta, if_neg hne]
  · intro h
    rw [Posterior.forwardTensorMeta, if_pos h]

/-- C9 witness: the torch-mode sample posterior keeps the adapter device;
the numpy_grad posterior lands on the CPU. -/
theorem forward_tensor_device_amended_witness :
    Posterior.forwardTensorMeta samplePost =
      ⟨samplePost.sed_model.adapter.device, false⟩ ∧
    Posterior.forwardTensorMeta gradPost = ⟨Device.cpu, true⟩ :=
  ⟨(forward_tensor_device_amended samplePost).1 (Or.inl rfl),
   (forward_tensor_device_amended gradPost).2 rfl⟩

/-- Folding a constant-step body over `range n` is `n`-fold iteration. -/
theorem foldlRangeIterate {α : Type} (f : α → α) (n : ℕ) (init : α) :
    (List.range n).foldl (fun s _ => f s) init = f^[n] init := by
  induction n with
  | zero => simp
  | succ n ih =>
    rw [List.range_succ, List.foldl_append, ih, List.foldl_cons, List.foldl_nil,
      Function.iterate_succ_apply']

/-- C10: `optimize` executes the evaluate / backpropagate / step /
zero-grad body exactly `n_step` times and returns the final parameter
values detached; with `n_step = 0` the body never runs and the initial
vector comes back unchanged. -/
theorem optimize_step_count (gradOf : List ℚ → List ℚ)
    (optStep : List ℚ → List ℚ → List ℚ) (x0 : List ℚ) (n_step : ℕ) :
    optimize gradOf optStep x0 n_step =
      ((optIteration gradOf optStep)^[n_step] ⟨x0, x0.map fun _ => 0⟩).params ∧
    optimize gradOf optStep x0 0 = x0 := by
  constructor
  · rw [optimize, foldlRangeIterate]
  · rfl

/-! ### Helper lemmas: substring scanning and replacement -/

theorem nilPrefix (xs : List Char) : ([] : List Char).isPrefixOf xs = true := by
  cases xs <;> simp [List.isPrefixOf]

theorem prefixRefl (xs : List Char) : xs.isPrefixOf xs = true := by
  induction xs with
  | nil => simp [List.isPrefixOf]
  | cons a as ih => simp [List.isPrefixOf, ih]

theorem prefixTrans (xs ys zs : List Char) (h1 : xs.isPrefixOf ys = true)
    (h2 : ys.isPrefixOf zs = true) : xs.isPrefixOf zs = true := by
  induction xs generalizing ys zs with
  | nil => exact nilPrefix zs
  | cons a as ih =>
    cases ys with
    | nil => simp [List.isPrefixOf] at h1
    | cons b bs =>
      cases zs with
      | nil => simp [List.isPrefixOf] at h2
      | cons c cs =>
        simp only [List.isPrefixOf, Bool.and_eq_true, beq_iff_eq] at h1 h2 ⊢
        exact ⟨h1.1.trans h2.1, ih bs cs h1.2 h2.2⟩

theorem prefixAppend (xs ys t : List Char) (h : xs.isPrefixOf ys = true) :
    xs.isPrefixOf (ys ++ t) = true := by
  induction xs generalizing ys with
  | nil => exact nilPrefix (ys ++ t)
  | cons a as ih =>
    cases ys with
    | nil => simp [List.isPrefixOf] at h
    | cons b bs =>
      simp only [List.cons_append, List.isPrefixOf, Bool.and_eq_true] at h ⊢
      exact ⟨h.1, ih bs h.2⟩

theorem notPrefixAppend (pat s t : List Char) (h1 : pat.isPrefixOf s = false)
    (h2 : s.isPrefixOf pat = false) : pat.isPrefixOf (s ++ t) = false := by
  induction pat generalizing s with
  | nil =>
    rw [nilPrefix s] at h1
    exact absurd h1 (by decide)
  | cons a as ih =>
    cases s with
    | nil =>
      rw [nilPrefix (a :: as)] at h2
      exact absurd h2 (by decide)
    | cons b bs =>
      by_cases hab : a = b
      · subst hab
        simp only [List.isPrefixOf, beq_self_eq_true, Bool.true_and] at h1 h2
        simp only [List.cons_append, List.isPrefixOf, beq_self_eq_true, Bool.true_and]
        exact ih bs h1 h2
      · simp only [List.cons_append, List.isPrefixOf]
        rw [beq_eq_false_iff_ne.mpr hab]
        rfl

theorem containsOfPrefix (pat s : List Char) (h : pat.isPrefixOf s = true) :
    containsSub pat s = true := by
  cases s with
  | nil => simpa [containsSub] using h
  | cons c cs => simp [containsSub, h]

theorem containsMono (p1 p2 s : List Char) (hp : p1.isPrefixOf p2 = true)
    (h : containsSub p2 s = true) : containsSub p1 s = true := by
  induction s with
  | nil =>
    simp only [containsSub] at h ⊢
    exact prefixTrans p1 p2 [] hp h
  | cons c cs ih =>
    simp only [containsSub, Bool.or_eq_true] at h ⊢
    rcases h with h | h
    · exact Or.inl (prefixTrans p1 p2 (c :: cs) hp h)
    · exact Or.inr (ih h)

theorem containsAppendSep (pat s t : List Char) (hs : sepFrom pat s = true) :
    containsSub pat (s ++ t) = containsSub pat t := by
  induction s with
  | nil => rfl
  | cons c cs ih =>
    simp only [sepFrom, Bool.and_eq_true, Bool.not_eq_true'] at hs
    obtain ⟨⟨h1, h2⟩, h3⟩ := hs
    have hnp : pat.isPrefixOf ((c :: cs) ++ t) = false := notPrefixAppend pat (c :: cs) t h2 h1
    rw [List.cons_append] at hnp
    rw [List.cons_append, containsSub, hnp, ih h3]
    simp

theorem stripAllConsSelf (p : Char) (pt k : List Char) :
    stripAll (p :: pt) ((p :: pt) ++ k) = stripAll (p :: pt) k := by
  have hpre : (p :: pt).isPrefixOf (p :: (pt ++ k)) = true := by
    have h := prefixAppend (p :: pt) (p :: pt) k (prefixRefl (p :: pt))
    rwa [List.cons_append] at h
  rw [List.cons_append, stripAll, if_pos ⟨hpre, by simp⟩]
  congr 1
  rw [show (p :: pt).length - 1 = pt.length by simp, List.drop_left]

theorem stripAllOfNotContains (pat k : List Char) (h : containsSub pat k = false) :
    stripAll pat k = k := by
  induction k with
  | nil => simp [stripAll]
  | cons c cs ih =>
    simp only [containsSub, Bool.or_eq_false_iff] at h
    obtain ⟨h1, h2⟩ := h
    rw [stripAll, if_neg, ih h2]
    rintro ⟨hp, -⟩
    rw [h1] at hp
    exact absurd hp (by decide)

theorem adapterPrefixedContains (k : List Char) :
    containsSub adapterSub (adapterDot ++ k) = true :=
  containsOfPrefix adapterSub (adapterDot ++ k)
    (prefixAppend adapterSub adapterDot k (by decide))

theorem detectorPrefixedContains (k : List Char) :
    containsSub detectorSub (detectorDot ++ k) = true :=
  containsOfPrefix detectorSub (detectorDot ++ k)
    (prefixAppend detectorSub detectorDot k (by decide))

theorem adapterNotInDetectorPrefixed (k : List Char)
    (h : containsSub adapterSub k = false) :
    containsSub adapterSub (detectorDot ++ k) = false := by
  rw [containsAppendSep adapterSub detectorDot k (by decide), h]

theorem detectorNotInAdapterPrefixed (k : List Char)
    (h : containsSub detectorSub k = false) :
    containsSub detectorSub (adapterDot ++ k) = false := by
  rw [containsAppendSep detectorSub adapterDot k (by decide), h]

theorem stripAdapterDotPrefixed (k : List Char)
    (h : containsSub adapterSub k = false) :
    stripAll adapterDot (adapterDot ++ k) = k := by
  have hd : containsSub adapterDot k = false := by
    cases hc : containsSub adapterDot k with
    | false => rfl
    | true =>
      have hmono := containsMono adapterSub adapterDot k (by decide) hc
      rw [h] at hmono
      exact absurd hmono (by decide)
  have hself : stripAll adapterDot (adapterDot ++ k) = stripAll adapterDot k :=
    stripAllConsSelf 'a' ['d', 'a', 'p', 't', 'e', 'r', '.'] k
  rw [hself, stripAllOfNotContains adapterDot k hd]

theorem stripDetectorDotPrefixed (k : List Char)
    (h : containsSub detectorSub k = false) :
    stripAll detectorDot (detectorDot ++ k) = k := by
  have hd : containsSub detectorDot k = false := by
    cases hc : containsSub detectorDot k with
    | false => rfl
    | true =>
      have hmono := containsMono detectorSub detectorDot k (by decide) hc
      rw [h] at hmono
      exact absurd hmono (by decide)
  have hself : stripAll detectorDot (detectorDot ++ k) = stripAll detectorDot k :=
    stripAllConsSelf 'd' ['e', 't', 'e', 'c', 't', 'o', 'r', '.'] k
  rw [hself, stripAllOfNotContains detectorDot k hd]

theorem keysClean_cons {κ : Type} (kv : AttrName × κ) (rest : List (AttrName × κ))
    (h : keysClean (kv :: rest) = true) :
    containsSub adapterSub kv.1 = false ∧ containsSub detectorSub kv.1 = false ∧
      keysClean rest = true := by
  simp only [keysClean, List.all_cons, Bool.and_eq_true, Bool.not_eq_true'] at h
  exact ⟨h.1.1, h.1.2, h.2⟩

theorem filterMapConsSome {α β : Type} (f : α → Option β) (a : α) (l : List α) (b : β)
    (h : f a = some b) : (a :: l).filterMap f = b :: l.filterMap f := by
  simp [List.filterMap_cons, h]

theorem filterMapConsNone {α β : Type} (f : α → Option β) (a : α) (l : List α)
    (h : f a = none) : (a :: l).filterMap f = l.filterMap f := by
  simp [List.filterMap_cons, h]

theorem adapterEntryMain {κ : Type} (kv : AttrName × κ)
    (h : containsSub adapterSub kv.1 = false) :
    adapterEntry (adapterDot ++ kv.1, kv.2) = some (kv.1, kv.2) := by
  rw [adapterEntry]
  simp only
  rw [if_pos (adapterPrefixedContains kv.1), stripAdapterDotPrefixed kv.1 h]

theorem adapterEntryOther {κ : Type} (kv : AttrName × κ)
    (h : containsSub adapterSub kv.1 = false) :
    adapterEntry (detectorDot ++ kv.1, kv.2) = none := by
  rw [adapterEntry]
  simp only
  rw [if_neg]
  rw [adapterNotInDetectorPrefixed kv.1 h]
  exact Bool.false_ne_true

theorem detectorEntryMain {κ : Type} (kv : AttrName × κ)
    (h : containsSub detectorSub kv.1 = false) :
    detectorEntry (detectorDot ++ kv.1, kv.2) = some (kv.1, kv.2) := by
  rw [detectorEntry]
  simp only
  rw [if_pos (detectorPrefixedContains kv.1), stripDetectorDotPrefixed kv.1 h]

theorem detectorEntryOther {κ : Type} (kv : AttrName × κ)
    (h : containsSub detectorSub kv.1 = false) :
    detectorEntry (adapterDot ++ kv.1, kv.2) = none := by
  rw [detectorEntry]
  simp only
  rw [if_neg]
  rw [detectorNotInAdapterPrefixed kv.1 h]
  exact Bool.false_ne_true

theorem adapterFilterMain {κ : Type} (ca : List (AttrName × κ))
    (h : keysClean ca = true) :
    ((ca.map fun kv => (adapterDot ++ kv.1, kv.2)).filterMap adapterEntry) = ca := by
  induction ca with
  | nil => rfl
  | cons kv rest ih =>
    obtain ⟨h1, -, h3⟩ := keysClean_cons kv rest h
    rw [List.map_cons,
      filterMapConsSome adapterEntry (adapterDot ++ kv.1, kv.2) _ (kv.1, kv.2)
        (adapterEntryMain kv h1),
      ih h3]

theorem adapterFilterOther {κ : Type} (cd : List (AttrName × κ))
    (h : keysClean cd = true) :
    ((cd.map fun kv => (detectorDot ++ kv.1, kv.2)).filterMap adapterEntry) = [] := by
  induction cd with
  | nil => rfl
  | cons kv rest ih =>
    obtain ⟨h1, -, h3⟩ := keysClean_cons kv rest h
    rw [List.map_cons,
      filterMapConsNone adapterEntry (detectorDot ++ kv.1, kv.2) _
        (adapterEntryOther kv h1),
      ih h3]

theorem detectorFilterMain {κ : Type} (cd : List (AttrName × κ))
    (h : keysClean cd = true) :
    ((cd.map fun kv => (detectorDot ++ kv.1, kv.2)).filterMap detectorEntry) = cd := by
  induction cd with
  | nil => rfl
  | cons kv rest ih =>
    obtain ⟨-, h2, h3⟩ := keysClean_cons kv rest h
    rw [List.map_cons,
      filterMapConsSome detectorEntry (detectorDot ++ kv.1, kv.2) _ (kv.1, kv.2)
        (detectorEntryMain kv h2),
      ih h3]

theorem detectorFilterOther {κ : Type} (ca : List (AttrName × κ))
    (h : keysClean ca = true) :
    ((ca.map fun kv => (adapterDot ++ kv.1, kv.2)).filterMap detectorEntry) = [] := by
  induction ca with
  | nil => rfl
  | cons kv rest ih =>
    obtain ⟨-, h2, h3⟩ := keysClean_cons kv rest h
    rw [List.map_cons,
      filterMapConsNone detectorEntry (adapterDot ++ kv.1, kv.2) _
        (detectorEntryOther kv h2),
      ih h3]

theorem getConfigRoundTrip {κ δ : Type} (ef : ErrorFunction)
    (ca cd : List (AttrName × κ)) (d : δ)
    (hca : keysClean ca = true) (hcd : keysClean cd = true) :
    (mkInferenceState ef ca cd d).get_config = (ca, cd) := by
  rw [InferenceState.get_config, mkInferenceState]
  simp only [List.filterMap_append]
  rw [adapterFilterMain ca hca, adapterFilterOther cd hcd,
    detectorFilterMain cd hcd, detectorFilterOther ca hca]
  simp

/-- C6: saving the inference state and loading it into a freshly
constructed posterior with the same forward-model adapter installs the
same error kernel (hence identical scores on identical inputs), restores
the adapter and detector configurations through the attribute-prefix
flattening convention, and returns the payload that was saved.  The
configuration keys are assumed not to contain the substrings "adapter" or
"detector", which the stringly-typed convention would misroute. -/
theorem inference_state_round_trip {κ δ : Type} (p q : PosteriorState κ)
    (ef : ErrorFunction) (d : δ)
    (he : p.error_func = some ef)
    (hca : keysClean p.sed_model.adapter.config = true)
    (hcd : keysClean p.sed_model.detector_config = true) :
    ∃ st, Posterior.save_inference_state p d = some st ∧
      (Posterior.load_inference_state q st).2 = d ∧
      (Posterior.load_inference_state q st).1.error_func = some ef ∧
      (∀ y_pred p_error,
        ((Posterior.load_inference_state q st).1.error_func.map fun e =>
          e.score y_pred p_error) = some (ef.score y_pred p_error)) ∧
      (Posterior.load_inference_state q st).1.sed_model.adapter.config =
        p.sed_model.adapter.config ∧
      (Posterior.load_inference_state q st).1.sed_model.detector_config =
        p.sed_model.detector_config := by
  have hrt := getConfigRoundTrip ef p.sed_model.adapter.config
    p.sed_model.detector_config d hca hcd
  refine ⟨mkInferenceState ef p.sed_model.adapter.config p.sed_model.detector_config d,
    ?_, rfl, rfl, fun y_pred p_error => rfl, ?_, ?_⟩
  · rw [Posterior.save_inference_state, he]
    rfl
  · simp [Posterior.load_inference_state, SedModel.configure_input_mode,
      SedModel.configure_output_mode, hrt]
  · simp [Posterior.load_inference_state, SedModel.configure_input_mode,
      SedModel.configure_output_mode, hrt]

/-- C6 witness: a posterior carrying the concrete configurations
"mode"/"band" is saved with payload 42 and loaded into a freshly
constructed posterior over the same SED model. -/
theorem inference_state_round_trip_witness :
    savePost.error_func = some sampleEf ∧
    keysClean savePost.sed_model.adapter.config = true ∧
    keysClean savePost.sed_model.detector_config = true ∧
    (∃ st, Posterior.save_inference_state savePost (42 : ℚ) = some st ∧
      (Posterior.load_inference_state (posteriorInit ratSed) st).2 = 42 ∧
      (Posterior.load_inference_state (posteriorInit ratSed) st).1.error_func =
        some sampleEf ∧
      (∀ y_pred p_error,
        ((Posterior.load_inference_state (posteriorInit ratSed) st).1.error_func.map
          fun e => e.score y_pred p_error) = some (sampleEf.score y_pred p_error)) ∧
      (Posterior.load_inference_state (posteriorInit ratSed) st).1.sed_model.adapter.config =
        savePost.sed_model.adapter.config ∧
      (Posterior.load_inference_state (posteriorInit ratSed) st).1.sed_model.detector_config =
        savePost.sed_model.detector_config) :=
  ⟨rfl, by decide, by decide,
    inference_state_round_trip savePost (posteriorInit ratSed) sampleEf 42 rfl
      (by decide) (by decide)⟩

end Starduster
